import Mathlib

/-!
Shallow embedding of the instagram-to-bluesky migration core:
the image constraint enforcer (`src/image.ts`), the media selector and
post segmenter (`src/media.ts`), and the publish orchestrator (`main`).

Filesystem reads and the sharp image library are modelled as explicit
oracles (`Env`, `Sharp`); JavaScript truthiness of optional numbers and
strings, and JavaScript `Date` objects (including the Invalid Date), are
modelled explicitly.  Buffers are modelled by their byte length plus an
abstract content tag.
-/

namespace IG2BSky

/-- A Node.js `Buffer`: its byte length plus an abstract content id used
by the oracles to distinguish different file contents of equal length. -/
structure Buffer where
  len : Nat
  blob : Nat
deriving DecidableEq, Repr

/-- `API_LIMIT_IMAGE_UPLOAD_SIZE` from `src/image.ts`. -/
def API_LIMIT_IMAGE_UPLOAD_SIZE : Nat := 976000

/-- `IMAGE_LENGTH_LIMIT` from `src/image.ts`. -/
def IMAGE_LENGTH_LIMIT : Nat := 1920

/-- JavaScript truthiness of `imageMeta.width` / `imageMeta.height`:
falsy when the field is `undefined` or `0`. -/
def jsTruthyNat : Option Nat → Bool
  | none => false
  | some n => n != 0

/-- Oracle for the sharp image library.  `meta` models
`sharp(buffer).metadata()`: `.error` is a thrown exception, `.ok` carries
the possibly-`undefined` `width` and `height` fields.  `resizeBuf` models
`sharp(buffer).resize({width, height, withoutEnlargement: true}).toBuffer()`;
`.error` is a thrown exception. -/
structure Sharp where
  meta : Buffer → Except Unit (Option Nat × Option Nat)
  resizeBuf : Buffer → Option Nat → Option Nat → Except Unit Buffer

/-- The resize target computed in `processImageBuffer`
(`src/image.ts` lines 38-46): clamp the longer edge to 1920, width when
square. -/
def resizeParams (w h : Nat) : Option Nat × Option Nat :=
  let width : Option Nat := if w > h then some IMAGE_LENGTH_LIMIT else none
  let height : Option Nat := if h > w then some IMAGE_LENGTH_LIMIT else none
  if ¬ jsTruthyNat width ∧ ¬ jsTruthyNat height then
    (some IMAGE_LENGTH_LIMIT, height)
  else (width, height)

/-- `processImageBuffer` from `src/image.ts`: return small buffers
unchanged; otherwise read dimensions (rejecting on a throw or missing
width/height), resize once, re-read metadata (a throw there is also
caught), and reject if the single resize pass is still over the limit. -/
def processImageBuffer (s : Sharp) (mediaBuffer : Buffer) : Option Buffer :=
  if mediaBuffer.len ≤ API_LIMIT_IMAGE_UPLOAD_SIZE then some mediaBuffer
  else
    match s.meta mediaBuffer with
    | .error _ => none
    | .ok (ow, oh) =>
      if ¬ jsTruthyNat ow ∨ ¬ jsTruthyNat oh then none
      else
        let dims := resizeParams (ow.getD 0) (oh.getD 0)
        match s.resizeBuf mediaBuffer dims.1 dims.2 with
        | .error _ => none
        | .ok bufferResized =>
          match s.meta bufferResized with
          | .error _ => none
          | .ok _ =>
            if bufferResized.len > API_LIMIT_IMAGE_UPLOAD_SIZE then none
            else some bufferResized

/-- `toLowerCase`, character by character (kernel-reducible form of
`String.toLower`). -/
def jsToLower (s : String) : String :=
  ⟨s.data.map Char.toLower⟩

/-- `String.prototype.startsWith` (kernel-reducible form of
`String.startsWith`). -/
def jsStartsWith (s p : String) : Bool :=
  p.data.isPrefixOf s.data

/-- `substring(0, n)` on code units (kernel-reducible form of
`String.take`). -/
def jsTake (s : String) (n : Nat) : String :=
  ⟨s.data.take n⟩

/-- The characters after the last `'.'`, when any. -/
def afterLastDot : List Char → Option (List Char)
  | [] => none
  | c :: cs =>
    match afterLastDot cs with
    | some r => some r
    | none => if c = '.' then some cs else none

/-- Modelled from the spec: `getImageMimeType` lives in the part of
`src/image.ts` absent from the provided sources (only its tests remain);
§4.1 fixes the case-insensitive image extension table
jpg/jpeg/png/webp/heic. -/
def getImageMimeType (fileType : String) : String :=
  let t := jsToLower fileType
  if t = "jpg" ∨ t = "jpeg" then "image/jpeg"
  else if t = "png" then "image/png"
  else if t = "webp" then "image/webp"
  else if t = "heic" then "image/heic"
  else ""

/-- Modelled from the spec: `getVideoMimeType` lives in `src/video.ts`,
absent from the provided sources; §4.1 fixes the case-insensitive video
extension table mp4/mov. -/
def getVideoMimeType (fileType : String) : String :=
  let t := jsToLower fileType
  if t = "mp4" then "video/mp4"
  else if t = "mov" then "video/quicktime"
  else ""

/-- Modelled from the spec: `isVideoMimeType` lives in `src/video.ts`,
absent from the provided sources; its tests pin `video/*` as video and
everything else (including the empty string) as not. -/
def isVideoMimeType (mimeType : String) : Bool :=
  jsStartsWith mimeType "video/"

/-- Modelled from the spec: `validateVideo` lives in `src/video.ts`,
absent from the provided sources; §4.3 fixes acceptance at
`len ≤ 100 * 1024 * 1024`. -/
def validateVideo (b : Buffer) : Bool :=
  b.len ≤ 100 * 1024 * 1024

/-- Modelled from the spec: `isImageTooLarge` lives in the part of
`src/image.ts` absent from the provided sources; its tests pin
`976000 → false`, `1000000 → true`, matching §4.2's upload ceiling. -/
def isImageTooLarge (b : Buffer) : Bool :=
  b.len > API_LIMIT_IMAGE_UPLOAD_SIZE

/-- `getMimeType` from `src/media.ts`: image table first, then video
table, empty string when neither matches. -/
def getMimeType (fileType : String) : String :=
  let imageMimeType := getImageMimeType fileType
  if imageMimeType ≠ "" then imageMimeType
  else
    let videoMimeType := getVideoMimeType fileType
    if videoMimeType ≠ "" then videoMimeType
    else ""

/-- `media.uri.substring(media.uri.lastIndexOf(".") + 1)`: the extension,
or the whole string when no dot occurs. -/
def fileTypeOf (uri : String) : String :=
  match afterLastDot uri.data with
  | some r => ⟨r⟩
  | none => uri

/-- One entry of `media_metadata.photo_metadata.exif_data`. -/
structure ExifLoc where
  latitude : Int
  longitude : Int
deriving DecidableEq, Repr

/-- One Instagram archive media item. -/
structure ArchiveMedia where
  uri : String
  creation_timestamp : Option Nat
  title : Option String
  exif : List ExifLoc
  /-- the `type` field read by `main` (`post.media[0].type`) -/
  mtype : Option String
  /-- the `media_url` field passed to `processVideoPost` -/
  media_url : Option String
  /-- the `buffer` field passed to `processVideoPost` -/
  vbuffer : Option Buffer
deriving DecidableEq, Repr

/-- One Instagram archive post. -/
structure ArchivePost where
  creation_timestamp : Option Nat
  title : Option String
  media : List ArchiveMedia
deriving DecidableEq, Repr

/-- `MediaProcessResult` from `src/media.ts`. -/
structure MediaProcessResult where
  mediaText : String
  mimeType : Option String
  mediaBuffer : Option Buffer
  isVideo : Bool
deriving DecidableEq, Repr

/-- A JavaScript `Date` object: either a valid instant in epoch
milliseconds or the Invalid Date (`new Date(NaN)`), which is still a
truthy object. -/
inductive JSDate
  | valid (ms : Int)
  | invalid
deriving DecidableEq, Repr

/-- JavaScript truthiness of an optional numeric timestamp: falsy when
`undefined` or `0`. -/
def jsTruthyTS : Option Nat → Bool
  | none => false
  | some n => n != 0

/-- `new Date(ts * 1000)` where `ts` may be `undefined`
(`undefined * 1000` is `NaN`, giving the Invalid Date). -/
def dateOfTS : Option Nat → JSDate
  | none => .invalid
  | some n => .valid ((n : Int) * 1000)

/-- The external world of the media pipeline: `FS.readFileSync` (`none`
is a thrown read error) and the sharp library. -/
structure Env where
  readFile : String → Option Buffer
  sharp : Sharp

/-- The caption derived in `processMedia` (`src/media.ts` lines 81-87):
the media title plus a geo suffix when the first EXIF entry has a
positive latitude. -/
def derivedMediaText (media : ArchiveMedia) : String :=
  let t := media.title.getD ""
  match media.exif.head? with
  | some location =>
    if location.latitude > 0 then
      t ++ "\nPhoto taken at these geographical coordinates: geo:"
        ++ toString location.latitude ++ "," ++ toString location.longitude
    else t
  | none => t

/-- The caption truncation in `processMedia` (`src/media.ts` lines
89-90): `mediaText.substring(0, 100) + "..."` when longer than 100. -/
def truncateCaption (mediaText : String) : String :=
  if mediaText.length > 100 then jsTake mediaText 100 ++ "..." else mediaText

/-- `processMedia` from `src/media.ts`: classify by extension, read the
file, push any buffer over the image upload limit (with a non-empty MIME
type, video or image alike) through `processImageBuffer`, then derive and
truncate the caption. -/
def processMedia (env : Env) (media : ArchiveMedia) (archiveFolder : String) :
    MediaProcessResult :=
  let fileType := fileTypeOf media.uri
  let mimeType := getMimeType fileType
  let mediaFilename := archiveFolder ++ "/" ++ media.uri
  match env.readFile mediaFilename with
  | none => { mediaText := "", mimeType := none, mediaBuffer := none, isVideo := false }
  | some buf0 =>
    let step : Option Buffer :=
      if isImageTooLarge buf0 ∧ mimeType ≠ "" then
        processImageBuffer env.sharp buf0
      else some buf0
    match step with
    | none => { mediaText := "", mimeType := none, mediaBuffer := none, isVideo := false }
    | some mediaBuffer =>
      { mediaText := truncateCaption (derivedMediaText media)
        mimeType := some mimeType
        mediaBuffer := some mediaBuffer
        isVideo := isVideoMimeType mimeType }

/-- One element of an `ImageEmbed[]` (`ImageEmbedImpl`). -/
structure ImageEmbedX where
  caption : String
  buffer : Buffer
  mimeType : String
deriving DecidableEq, Repr

/-- `VideoEmbed | ImageEmbed[]`: the tagged union of the two embed
shapes. -/
inductive EmbeddedMedia
  | video (caption : String) (buffer : Buffer) (mimeType : String)
  | images (items : List ImageEmbedX)
deriving DecidableEq, Repr

/-- `ProcessedPost` from `src/media.ts`. -/
structure ProcessedPost where
  postDate : Option JSDate
  postText : String
  embeddedMedia : EmbeddedMedia
  mediaCount : Nat
deriving DecidableEq, Repr

/-- `MAX_IMAGES_PER_POST` from `src/media.ts`. -/
def MAX_IMAGES_PER_POST : Nat := 4

/-- The post-text truncation in `processPost` (`src/media.ts` lines
115-121): 297 characters plus the 3-character marker. -/
def truncatePostText (postText : String) : String :=
  if postText.length > 300 then jsTake postText 297 ++ "..." else postText

/-- The image loop of `processPost` (`src/media.ts` lines 159-178):
iterate media in order with index `j`, warning and breaking at
`j ≥ MAX_IMAGES_PER_POST`, skipping unusable or video-classified items,
appending the rest.  The returned flag records whether the cap warning
was emitted. -/
def imageLoop (env : Env) (archiveFolder : String) :
    List ArchiveMedia → Nat → List ImageEmbedX × Nat × Bool
  | [], _ => ([], 0, false)
  | m :: ms, j =>
    if j ≥ MAX_IMAGES_PER_POST then ([], 0, true)
    else
      let r := processMedia env m archiveFolder
      let rest := imageLoop env archiveFolder ms (j + 1)
      match r.mimeType, r.mediaBuffer with
      | some mt, some mb =>
        if mt ≠ "" ∧ ¬ r.isVideo then
          (⟨r.mediaText, mb, mt⟩ :: rest.1, rest.2.1 + 1, rest.2.2)
        else rest
      | _, _ => rest

/-- `processPost` from `src/media.ts`.  The second component records
whether the 4-image cap warning was emitted.  JavaScript `undefined`
resulting from `postText || post.media[0].title` with a missing media
title is modelled as the empty string. -/
def processPost (env : Env) (post : ArchivePost) (archiveFolder : String) :
    ProcessedPost × Bool :=
  let postDate0 : Option JSDate :=
    if jsTruthyTS post.creation_timestamp then
      some (dateOfTS post.creation_timestamp)
    else none
  let postText0 := truncatePostText (post.title.getD "")
  match post.media with
  | [] =>
    ({ postDate := postDate0, postText := postText0
       embeddedMedia := .images [], mediaCount := 0 }, false)
  | m0 :: rest =>
    let postText :=
      if (m0 :: rest).length = 1 ∧ postText0 = "" then m0.title.getD ""
      else postText0
    let postDate :=
      if (m0 :: rest).length = 1 then
        match postDate0 with
        | some d => some d
        | none => some (dateOfTS m0.creation_timestamp)
      else postDate0
    let firstMedia := processMedia env m0 archiveFolder
    if firstMedia.isVideo then
      let embedCount : EmbeddedMedia × Nat :=
        match firstMedia.mimeType, firstMedia.mediaBuffer with
        | some mt, some mb =>
          if mt ≠ "" ∧ validateVideo mb then
            (.video firstMedia.mediaText mb mt, 1)
          else (.images [], 0)
        | _, _ => (.images [], 0)
      ({ postDate := postDate, postText := postText
         embeddedMedia := embedCount.1, mediaCount := embedCount.2 }, false)
    else
      let looped := imageLoop env archiveFolder (m0 :: rest) 0
      ({ postDate := postDate, postText := postText
         embeddedMedia := .images looped.1, mediaCount := looped.2.1 }, looped.2.2)

/-- `API_RATE_LIMIT_DELAY` from the orchestrator source. -/
def API_RATE_LIMIT_DELAY : Nat := 3000

/-- Run configuration resolved at INIT: simulate flag and the optional
date bounds, as epoch milliseconds of the parsed `MIN_DATE`/`MAX_DATE`. -/
structure RunCfg where
  simulate : Bool
  minDate : Option Int
  maxDate : Option Int

/-- Outcome of one `bluesky.createPost` call: a URL, `null`, or a thrown
error. -/
inductive CreateRes
  | url (s : String)
  | nullRes
  | throwE
deriving DecidableEq, Repr

/-- The destination client, keyed by how many calls of each operation
happened before (the run is fully sequential). -/
structure Client where
  createPost : Nat → CreateRes
  uploadVideo : Buffer → Option String

/-- Modelled from the spec: the video metadata produced by
`prepareVideoUpload` in `src/video.ts`, absent from the provided sources;
§4.3 describes it as a best-effort width/height probe whose failures are
raised, and §6 as carrying the upload `ref` after upload. -/
structure VideoData where
  width : Nat
  height : Nat
  ref : Option String
deriving DecidableEq, Repr

/-- Oracle for `prepareVideoUpload` (modelled from the spec, see
`VideoData`): probing may raise. -/
structure VideoProbe where
  probe : Option String → Buffer → Except Unit VideoData

/-- `processVideoPost` from the orchestrator source: throw on a missing
buffer, probe metadata (failures propagate), and in live mode upload the
bytes and require a `ref`, throwing otherwise. -/
def processVideoPostE (vp : VideoProbe) (client : Client) (simulate : Bool)
    (filePath : Option String) (buffer : Option Buffer) :
    Except Unit VideoData :=
  match buffer with
  | none => .error ()
  | some b =>
    match vp.probe filePath b with
    | .error e => .error e
    | .ok videoData =>
      if ¬ simulate then
        match client.uploadVideo b with
        | none => .error ()
        | some link => .ok { videoData with ref := some link }
      else .ok videoData

/-- The check-date computation of the orchestrator loop (lines 142-149):
prefer a truthy post timestamp; otherwise dereference `post.media[0]`
(a `TypeError`, modelled as `.error`, when the media list is empty) and
use its timestamp when truthy; `none` when both are falsy. -/
def checkDateE (p : ArchivePost) : Except Unit (Option Int) :=
  if jsTruthyTS p.creation_timestamp then
    .ok (some ((p.creation_timestamp.getD 0 : Int) * 1000))
  else
    match p.media.head? with
    | none => .error ()
    | some m =>
      if jsTruthyTS m.creation_timestamp then
        .ok (some ((m.creation_timestamp.getD 0 : Int) * 1000))
      else .ok none

/-- `postDate.toISOString()`: throws a `RangeError` on the Invalid
Date. -/
def toISOStringE : JSDate → Except Unit Unit
  | .valid _ => .ok ()
  | .invalid => .error ()

/-- The orchestrator's run counters plus two observability counters:
`calls` counts `createPost` invocations and `evals` counts posts that
reached `processPost`. -/
structure RunState where
  importedPosts : Nat
  importedMedia : Nat
  calls : Nat
  evals : Nat
deriving DecidableEq, Repr

/-- Outcome of one loop iteration: `continue` with a new state, or
`break` (the MAX_DATE stop). -/
inductive StepOut
  | cont (s : RunState)
  | stop (s : RunState)
deriving DecidableEq, Repr

/-- `MIN_DATE && checkDate < MIN_DATE`. -/
def minSkip (cfg : RunCfg) (d : Int) : Bool :=
  match cfg.minDate with
  | some m => d < m
  | none => false

/-- `MAX_DATE && checkDate > MAX_DATE`. -/
def maxStop (cfg : RunCfg) (d : Int) : Bool :=
  match cfg.maxDate with
  | some m => d > m
  | none => false

/-- One iteration of the orchestrator loop (lines 141-262): check-date
gates, `processPost`, the unconditional `post.media[0].type` access (a
`TypeError` on empty media), the video branch (failures skip the post),
the defensive date re-check, submission or simulated counting, the debug
log's `toISOString`, and the unconditional `importedMedia` accumulation. -/
def loopStep (cfg : RunCfg) (client : Client) (vp : VideoProbe) (env : Env)
    (archiveFolder : String) (s : RunState) (p : ArchivePost) :
    Except Unit StepOut :=
  match checkDateE p with
  | .error e => .error e
  | .ok none => .ok (.cont s)
  | .ok (some d) =>
    if minSkip cfg d then .ok (.cont s)
    else if maxStop cfg d then .ok (.stop s)
    else
      let s1 : RunState := { s with evals := s.evals + 1 }
      let pp := (processPost env p archiveFolder).1
      match p.media.head? with
      | none => .error ()
      | some m0 =>
        let videoRes : Except Unit Bool :=
          if m0.mtype = some "Video" then
            match processVideoPostE vp client cfg.simulate m0.media_url m0.vbuffer with
            | .error _ => .ok true
            | .ok _ => .ok false
          else .ok false
        match videoRes with
        | .error e => .error e
        | .ok true => .ok (.cont s1)
        | .ok false =>
          match pp.postDate with
          | none => .ok (.cont s1)
          | some ppd =>
            let s2 : RunState :=
              if ¬ cfg.simulate then
                let s2a := { s1 with calls := s1.calls + 1 }
                match client.createPost s1.calls with
                | .url _ => { s2a with importedPosts := s2a.importedPosts + 1 }
                | .nullRes => s2a
                | .throwE => s2a
              else { s1 with importedPosts := s1.importedPosts + 1 }
            match toISOStringE ppd with
            | .error e => .error e
            | .ok _ =>
              .ok (.cont { s2 with importedMedia := s2.importedMedia + pp.mediaCount })

/-- The orchestrator loop over the sorted posts: fold `loopStep`,
stopping on `break` and propagating uncaught exceptions. -/
def runLoop (cfg : RunCfg) (client : Client) (vp : VideoProbe) (env : Env)
    (archiveFolder : String) : List ArchivePost → RunState → Except Unit RunState
  | [], s => .ok s
  | p :: rest, s =>
    match loopStep cfg client vp env archiveFolder s p with
    | .error e => .error e
    | .ok (.stop s') => .ok s'
    | .ok (.cont s') => runLoop cfg client vp env archiveFolder rest s'

/-- The sort key of the orchestrator's comparator:
`new Date(p.media[0].creation_timestamp * 1000).getTime()`.  A missing
timestamp yields `NaN` in JavaScript; it is modelled as 0
(no claim exercises that corner). -/
def sortKey (p : ArchivePost) : Int :=
  match p.media.head? with
  | some m => (m.creation_timestamp.getD 0 : Int) * 1000
  | none => 0

/-- Stable insertion of a post into an ascending-by-key list. -/
def insertByKey (p : ArchivePost) : List ArchivePost → List ArchivePost
  | [] => [p]
  | q :: qs => if sortKey p < sortKey q then p :: q :: qs else q :: insertByKey p qs

/-- Stable ascending sort by `sortKey`. -/
def stableSortByKey : List ArchivePost → List ArchivePost
  | [] => []
  | p :: ps => insertByKey p (stableSortByKey ps)

/-- The orchestrator's SORT step.  The comparator dereferences
`a.media[0]` of every compared element, so with at least two posts any
post with an empty media list makes the whole sort throw a `TypeError`. -/
def sortPostsE (posts : List ArchivePost) : Except Unit (List ArchivePost) :=
  if posts.length ≤ 1 then .ok posts
  else if posts.any (fun p => p.media.isEmpty) then .error ()
  else .ok (stableSortByKey posts)

/-- `{importedPosts := 0, importedMedia := 0}` plus the observability
counters, at process start. -/
def initialRunState : RunState :=
  { importedPosts := 0, importedMedia := 0, calls := 0, evals := 0 }

/-- The orchestrator `main` after INIT: sort the archive posts, then run
the per-post loop.  `.error` is an uncaught exception aborting the whole
run. -/
def mainE (cfg : RunCfg) (client : Client) (vp : VideoProbe) (env : Env)
    (archiveFolder : String) (posts : List ArchivePost) : Except Unit RunState :=
  match sortPostsE posts with
  | .error e => .error e
  | .ok sorted => runLoop cfg client vp env archiveFolder sorted initialRunState

/-- `calculateEstimatedTime` from the orchestrator source, in minutes
before rendering: `round(importedMedia * 3000 / 1000 / 60 * 1.1)`. -/
def estimatedMinutes (importedMedia : Nat) : Nat :=
  (importedMedia * API_RATE_LIMIT_DELAY * 11 + 300000) / 600000

/-! Concrete fixtures used by counterexamples and witnesses. -/

/-- A 976,001-byte file: one byte over the image upload ceiling, far
under the 100 MiB video ceiling. -/
def bufBigVideo : Buffer := ⟨976001, 0⟩

/-- A small (1,000-byte) image file. -/
def bufSmallImage : Buffer := ⟨1000, 1⟩

/-- A sharp oracle for which no buffer is a readable image (as for real
video bytes): metadata always throws. -/
def sharpOpaque : Sharp :=
  { meta := fun _ => .error (), resizeBuf := fun _ _ _ => .error () }

/-- Filesystem holding `f/v.mp4` (976,001 bytes) and `f/i.jpg`
(1,000 bytes); sharp cannot read either. -/
def envVideoArchive : Env :=
  { readFile := fun p =>
      if p = "f/v.mp4" then some bufBigVideo
      else if p = "f/i.jpg" then some bufSmallImage
      else none
    sharp := sharpOpaque }

/-- Filesystem where every path reads as the small image. -/
def envAllSmall : Env :=
  { readFile := fun _ => some bufSmallImage, sharp := sharpOpaque }

/-- Filesystem where every read throws. -/
def envNoFiles : Env :=
  { readFile := fun _ => none, sharp := sharpOpaque }

/-- An mp4 media item whose file is `f/v.mp4`. -/
def mediaVideoBig : ArchiveMedia :=
  ⟨"v.mp4", some 1700000000, none, [], none, none, none⟩

/-- A jpg media item whose file is `f/i.jpg`. -/
def mediaSmallJpg : ArchiveMedia :=
  ⟨"i.jpg", some 1700000001, none, [], none, none, none⟩

/-- A media item with an unsupported extension. -/
def mediaJunk : ArchiveMedia :=
  ⟨"x.xyz", some 1, none, [], none, none, none⟩

/-- A dummy client: `createPost` returns `null`, uploads fail. -/
def clientNull : Client :=
  { createPost := fun _ => .nullRes, uploadVideo := fun _ => none }

/-- A client whose every `createPost` call throws. -/
def clientThrow : Client :=
  { createPost := fun _ => .throwE, uploadVideo := fun _ => none }

/-- A probe that always raises. -/
def vpFail : VideoProbe := { probe := fun _ _ => .error () }

/-- Simulate mode, no date bounds. -/
def cfgSim : RunCfg := ⟨true, none, none⟩

/-- Live mode, no date bounds. -/
def cfgLive : RunCfg := ⟨false, none, none⟩

/-- Does `processMedia` yield a usable image for this item (non-empty
MIME type, usable bytes, not video)?  The "qualifying" notion of §8. -/
def qualifiesImage (env : Env) (folder : String) (m : ArchiveMedia) : Bool :=
  let r := processMedia env m folder
  r.mimeType.getD "" != "" && r.mediaBuffer.isSome && !r.isVideo

/-- The image embed built from a qualifying `MediaProcessResult`. -/
def imageEmbedOfResult (r : MediaProcessResult) : ImageEmbedX :=
  ⟨r.mediaText, r.mediaBuffer.getD ⟨0, 0⟩, r.mimeType.getD ""⟩

/-- A dated post whose only media item is the 976,001-byte mp4. -/
def postVideoOnly : ArchivePost := ⟨some 1700000000, some "hi", [mediaVideoBig]⟩

/-- A dated post with the 976,001-byte mp4 first and a small jpg second. -/
def postVideoThenImage : ArchivePost :=
  ⟨some 1700000000, some "hi", [mediaVideoBig, mediaSmallJpg]⟩

/-- A jpg media item with creation timestamp 5. -/
def mediaTS5 : ArchiveMedia := ⟨"a.jpg", some 5, none, [], none, none, none⟩

/-- A post without its own timestamp, with two media items, the first
timestamped. -/
def postTwoNoOwnTS : ArchivePost := ⟨none, some "t", [mediaTS5, mediaSmallJpg]⟩

/-- A dated post with an empty media list. -/
def postEmptyMedia : ArchivePost := ⟨some 1700000000, some "hi", []⟩

/-- A dated post whose single media item is the small jpg. -/
def postOneJpg : ArchivePost := ⟨some 10, some "t", [mediaSmallJpg]⟩

/-- A jpg media item titled with 101 copies of `A`. -/
def mediaLongTitle : ArchiveMedia :=
  ⟨"i.jpg", some 1, some (String.mk (List.replicate 101 'A')), [], none, none, none⟩

/-- A dated post with six media items: one unsupported, then five
qualifying jpgs. -/
def postSixMedia : ArchivePost :=
  ⟨some 1, some "t",
    [mediaJunk, mediaSmallJpg, mediaSmallJpg, mediaSmallJpg, mediaSmallJpg, mediaSmallJpg]⟩

/-- A dated post with five qualifying jpgs. -/
def postFiveJpg : ArchivePost :=
  ⟨some 1, some "t",
    [mediaSmallJpg, mediaSmallJpg, mediaSmallJpg, mediaSmallJpg, mediaSmallJpg]⟩

/-- A media item with creation timestamp 0 (the epoch). -/
def mediaZeroTS : ArchiveMedia := ⟨"i.jpg", some 0, none, [], none, none, none⟩

/-- A post whose own timestamp and first-media timestamp are both 0. -/
def postZeroZero : ArchivePost := ⟨some 0, some "t", [mediaZeroTS]⟩

/-- Simulate mode with `MAX_DATE` at 5 ms after the epoch. -/
def cfgMaxSmall : RunCfg := ⟨true, none, some 5⟩

/-- Simulate mode with a large `MIN_DATE`. -/
def cfgMinLarge : RunCfg := ⟨true, some 99999999, none⟩

/-- A sharp oracle that reads blob 9 as a 4000x3000 image and resizes
anything to a 500,000-byte blob-9 buffer. -/
def sharpNice : Sharp :=
  { meta := fun b => if b.blob = 9 then .ok (some 4000, some 3000) else .error ()
    resizeBuf := fun _ _ _ => .ok ⟨500000, 9⟩ }

/-- A 2,000,000-byte blob-9 buffer. -/
def bufHuge : Buffer := ⟨2000000, 9⟩

/-! Theorems.  Claim-labelled theorems follow; helper lemmas are shared. -/

/-- C1: a post whose first media item has a video MIME type and a
readable file of 976,001 bytes (well under the 100 MiB video ceiling,
over the image ceiling, and — like any real mp4 — unreadable by the image
library) does NOT produce a VideoEmbed: the buffer is routed through the
image resizer, which fails, nulls the MIME type, un-classifies the video,
and the post falls through to the image path, yielding an empty image
list with media count 0. -/
theorem C1_video_over_image_limit_eval :
    isVideoMimeType (getMimeType (fileTypeOf mediaVideoBig.uri)) = true ∧
    envVideoArchive.readFile ("f" ++ "/" ++ mediaVideoBig.uri) = some bufBigVideo ∧
    validateVideo bufBigVideo = true ∧
    processPost envVideoArchive postVideoOnly "f" =
      ({ postDate := some (.valid 1700000000000), postText := "hi"
         embeddedMedia := .images [], mediaCount := 0 }, false) := by
  refine ⟨rfl, by decide, by decide, by decide⟩

/-- C2: a post whose first media item classifies as video (976,001-byte
mp4) still gets a sibling image appended to its embed: the oversized
video is mangled by the image-resize path, stops being detected as video,
and the image loop then embeds the second media item. -/
theorem C2_sibling_image_after_video_eval :
    isVideoMimeType (getMimeType (fileTypeOf mediaVideoBig.uri)) = true ∧
    processPost envVideoArchive postVideoThenImage "f" =
      ({ postDate := some (.valid 1700000000000), postText := "hi"
         embeddedMedia := .images [⟨"", bufSmallImage, "image/jpeg"⟩]
         mediaCount := 1 }, false) := by
  refine ⟨rfl, by decide⟩

/-- C4: an archive containing a single dated post with zero media items
aborts the whole run: the orchestrator unconditionally dereferences
`post.media[0]`, throwing a TypeError — although `processPost` itself
handles the media-less post fine (text-only, empty image list, count 0). -/
theorem C4_empty_media_post_aborts_run :
    jsTruthyTS postEmptyMedia.creation_timestamp = true ∧
    postEmptyMedia.media = [] ∧
    (processPost envNoFiles postEmptyMedia "f").1.embeddedMedia = .images [] ∧
    (processPost envNoFiles postEmptyMedia "f").1.mediaCount = 0 ∧
    mainE cfgSim clientNull vpFail envNoFiles "f" [postEmptyMedia] = .error () := by
  refine ⟨rfl, rfl, by decide, by decide, rfl⟩

/-- C3 counterexample: a post with no own timestamp and TWO media items,
the first timestamped, resolves to a null date — the fallback to the
first media item's timestamp does not happen. -/
theorem C3_counterexample :
    postTwoNoOwnTS.creation_timestamp = none ∧
    postTwoNoOwnTS.media.head?.map (fun m => m.creation_timestamp) = some (some 5) ∧
    postTwoNoOwnTS.media.length = 2 ∧
    (processPost envNoFiles postTwoNoOwnTS "f").1.postDate = none := by
  refine ⟨rfl, rfl, rfl, by decide⟩

/-- C3 (amended): `processPost` falls back to the first media item's
timestamp only when the post has exactly one media item (a missing
single-media timestamp then gives the truthy Invalid Date, not null);
with two or more media items and a falsy post timestamp the date is
null. -/
theorem C3_fallback_only_single_media
    (env : Env) (folder : String) (post : ArchivePost)
    (h : jsTruthyTS post.creation_timestamp = false) :
    (∀ m t, post.media = [m] → m.creation_timestamp = some t →
      (processPost env post folder).1.postDate = some (.valid ((t : Int) * 1000))) ∧
    (∀ m, post.media = [m] → m.creation_timestamp = none →
      (processPost env post folder).1.postDate = some .invalid) ∧
    (2 ≤ post.media.length →
      (processPost env post folder).1.postDate = none) := by
  refine ⟨?_, ?_, ?_⟩
  · intro m t hm ht
    simp only [processPost, hm, h, List.length_singleton, ht, if_true, if_false,
      Bool.false_eq_true, dateOfTS]
    split <;> simp
  · intro m hm ht
    simp only [processPost, hm, h, List.length_singleton, ht, if_true, if_false,
      Bool.false_eq_true, dateOfTS]
    split <;> simp
  · intro hlen
    match hm : post.media with
    | [] => simp only [processPost, hm, h, Bool.false_eq_true, if_false]
    | m0 :: m1 :: rest =>
      have hne : (m0 :: m1 :: rest).length ≠ 1 := by simp
      simp only [processPost, hm, h, Bool.false_eq_true, if_false, hne]
      split <;> simp
    | [m0] => rw [hm] at hlen; simp at hlen

/-- C3 witness: the single-media fallback, the single-media Invalid
Date, and the multi-media null date, each at a concrete input. -/
theorem C3_witness :
    (processPost envNoFiles ⟨none, some "t", [mediaTS5]⟩ "f").1.postDate =
      some (.valid 5000) ∧
    (processPost envNoFiles ⟨none, some "t", [⟨"b.jpg", none, none, [], none, none, none⟩]⟩ "f").1.postDate =
      some .invalid ∧
    (processPost envNoFiles postTwoNoOwnTS "f").1.postDate = none :=
  ⟨(C3_fallback_only_single_media envNoFiles "f" ⟨none, some "t", [mediaTS5]⟩ rfl).1
      mediaTS5 5 rfl rfl,
   (C3_fallback_only_single_media envNoFiles "f"
      ⟨none, some "t", [⟨"b.jpg", none, none, [], none, none, none⟩]⟩ rfl).2.1
      ⟨"b.jpg", none, none, [], none, none, none⟩ rfl rfl,
   (C3_fallback_only_single_media envNoFiles "f" postTwoNoOwnTS rfl).2.2 (by decide)⟩

/-- C10: a creation timestamp of 0 is falsy in JavaScript and is treated
as absent throughout: `processPost` behaves identically for a post
timestamp of `0` and a missing one, and the orchestrator's check-date
yields "no date" when both the post and first-media timestamps are 0, so
the loop skips the post unchanged instead of dating it at the epoch. -/
theorem C10_zero_timestamp_as_absent :
    (∀ (env : Env) (folder : String) (title : Option String) (media : List ArchiveMedia),
      processPost env ⟨some 0, title, media⟩ folder =
        processPost env ⟨none, title, media⟩ folder) ∧
    (∀ p m, p.creation_timestamp = some 0 → p.media.head? = some m →
      m.creation_timestamp = some 0 → checkDateE p = .ok none) ∧
    (∀ cfg client vp env folder s p m, p.creation_timestamp = some 0 →
      p.media.head? = some m → m.creation_timestamp = some 0 →
      loopStep cfg client vp env folder s p = .ok (.cont s)) := by
  refine ⟨?_, ?_, ?_⟩
  · intro env folder title media
    rfl
  · intro p m hp hm hmts
    simp only [checkDateE, hp, hm, hmts, jsTruthyTS]
    simp
  · intro cfg client vp env folder s p m hp hm hmts
    have hcd : checkDateE p = .ok none := by
      simp only [checkDateE, hp, hm, hmts, jsTruthyTS]
      simp
    simp only [loopStep, hcd]

/-- C10 witness: the zero-timestamp post at a concrete input. -/
theorem C10_witness :
    processPost envNoFiles ⟨some 0, some "t", [mediaZeroTS]⟩ "f" =
      processPost envNoFiles ⟨none, some "t", [mediaZeroTS]⟩ "f" ∧
    checkDateE postZeroZero = .ok none ∧
    loopStep cfgSim clientNull vpFail envNoFiles "f" initialRunState postZeroZero =
      .ok (.cont initialRunState) :=
  ⟨C10_zero_timestamp_as_absent.1 envNoFiles "f" (some "t") [mediaZeroTS],
   C10_zero_timestamp_as_absent.2.1 postZeroZero mediaZeroTS rfl rfl rfl,
   C10_zero_timestamp_as_absent.2.2 cfgSim clientNull vpFail envNoFiles "f"
     initialRunState postZeroZero mediaZeroTS rfl rfl rfl⟩

/-- C5 counterexample: in live mode, a one-image post whose only
submission throws leaves `importedPosts` at 0 but still adds the post's
media count to `importedMedia` (final state: 0 posts, 1 media, 1
`createPost` call, 1 evaluation). -/
theorem C5_counterexample :
    cfgLive.simulate = false ∧
    clientThrow.createPost 0 = .throwE ∧
    (processPost envVideoArchive postOneJpg "f").1.mediaCount = 1 ∧
    mainE cfgLive clientThrow vpFail envVideoArchive "f" [postOneJpg] =
      .ok ⟨0, 1, 1, 1⟩ := by
  refine ⟨rfl, rfl, by decide, rfl⟩

/-- C5 (amended): in live mode, when the `createPost` call for a post
throws (the call is witnessed by the `calls` counter increment), the
imported-post counter is unchanged and the run continues — but the post's
media count IS still added to the imported-media counter. -/
theorem C5_failed_submission_media_counted
    (cfg : RunCfg) (client : Client) (vp : VideoProbe) (env : Env) (folder : String)
    (s : RunState) (p : ArchivePost) (s' : RunState)
    (hsim : cfg.simulate = false)
    (hthrow : client.createPost s.calls = .throwE)
    (hstep : loopStep cfg client vp env folder s p = .ok (.cont s'))
    (hcall : s'.calls = s.calls + 1) :
    s'.importedPosts = s.importedPosts ∧
    s'.importedMedia = s.importedMedia + (processPost env p folder).1.mediaCount := by
  simp only [loopStep, hsim, Bool.not_false, if_true] at hstep
  split at hstep
  · exact absurd hstep (by simp)
  · simp only [Except.ok.injEq, StepOut.cont.injEq] at hstep
    subst hstep
    omega
  · split at hstep
    · simp only [Except.ok.injEq, StepOut.cont.injEq] at hstep
      subst hstep
      omega
    · split at hstep
      · simp at hstep
      · split at hstep
        · exact absurd hstep (by simp)
        · split at hstep
          · exact absurd hstep (by simp)
          · simp only [Except.ok.injEq, StepOut.cont.injEq] at hstep
            subst hstep
            simp at hcall
          · split at hstep
            · simp only [Except.ok.injEq, StepOut.cont.injEq] at hstep
              subst hstep
              simp at hcall
            · split at hstep
              · exact absurd hstep (by simp)
              · simp only [Except.ok.injEq, StepOut.cont.injEq] at hstep
                rw [hthrow] at hstep
                subst hstep
                simp

/-- C5 witness: the amended statement at the concrete failing
submission. -/
theorem C5_witness :
    (⟨0, 1, 1, 1⟩ : RunState).importedPosts = initialRunState.importedPosts ∧
    (⟨0, 1, 1, 1⟩ : RunState).importedMedia =
      initialRunState.importedMedia +
        (processPost envVideoArchive postOneJpg "f").1.mediaCount :=
  C5_failed_submission_media_counted cfgLive clientThrow vpFail envVideoArchive "f"
    initialRunState postOneJpg ⟨0, 1, 1, 1⟩ rfl rfl rfl rfl

/-- Helper: when `processMedia` yields usable bytes, its caption is the
truncation of the derived caption. -/
theorem processMedia_text_of_usable (env : Env) (media : ArchiveMedia) (folder : String)
    (h : (processMedia env media folder).mediaBuffer.isSome = true) :
    (processMedia env media folder).mediaText = truncateCaption (derivedMediaText media) := by
  simp only [processMedia] at h ⊢
  split at h
  · simp at h
  · split at h
    · simp at h
    · rfl

/-- Helper: every image embed produced by the image loop carries the
caption of the `processMedia` result of some media item of the list. -/
theorem imageLoop_mem_caption (env : Env) (folder : String) :
    ∀ (ms : List ArchiveMedia) (j : Nat) (e : ImageEmbedX),
      e ∈ (imageLoop env folder ms j).1 →
      ∃ m ∈ ms, e.caption = (processMedia env m folder).mediaText := by
  intro ms
  induction ms with
  | nil => intro j e he; simp [imageLoop] at he
  | cons m ms ih =>
    intro j e he
    simp only [imageLoop] at he
    split at he
    · simp at he
    · split at he
      · split at he
        · rcases List.mem_cons.mp he with rfl | htail
          · exact ⟨m, List.mem_cons_self m ms, rfl⟩
          · obtain ⟨m', hm', hc⟩ := ih (j + 1) e htail
            exact ⟨m', List.mem_cons_of_mem m hm', hc⟩
        · obtain ⟨m', hm', hc⟩ := ih (j + 1) e he
          exact ⟨m', List.mem_cons_of_mem m hm', hc⟩
      · obtain ⟨m', hm', hc⟩ := ih (j + 1) e he
        exact ⟨m', List.mem_cons_of_mem m hm', hc⟩

/-- Helper: an image-list embed out of `processPost` is either empty or
exactly the image loop's output. -/
theorem processPost_images_shape (env : Env) (post : ArchivePost) (folder : String)
    (l : List ImageEmbedX)
    (hl : (processPost env post folder).1.embeddedMedia = .images l) :
    l = [] ∨ l = (imageLoop env folder post.media 0).1 := by
  rcases hm : post.media with _ | ⟨m0, rest⟩
  · left
    simp only [processPost, hm, EmbeddedMedia.images.injEq] at hl
    exact hl.symm
  · simp only [processPost, hm] at hl
    split at hl
    · left
      dsimp only at hl
      split at hl
      · split at hl
        · simp at hl
        · exact (by simpa using hl.symm)
      · exact (by simpa using hl.symm)
    · right
      dsimp only at hl
      exact (by simpa using hl.symm)


/-- Helper: a video embed out of `processPost` carries the stored caption
of the first media item. -/
theorem processPost_video_caption (env : Env) (post : ArchivePost) (folder : String)
    (c : String) (b : Buffer) (mt : String)
    (hv : (processPost env post folder).1.embeddedMedia = .video c b mt) :
    ∃ m ∈ post.media, c = (processMedia env m folder).mediaText := by
  rcases hm : post.media with _ | ⟨m0, rest⟩
  · simp [processPost, hm] at hv
  · simp only [processPost, hm] at hv
    split at hv
    · dsimp only at hv
      split at hv
      · split at hv
        · simp only [EmbeddedMedia.video.injEq] at hv
          exact ⟨m0, by simp [hm], hv.1.symm⟩
        · simp at hv
      · simp at hv
    · dsimp only at hv
      simp at hv

/-- C6 counterexample: a media item whose derived caption is 101
characters long is stored with a caption of length 103 (first 100
characters plus the 3-character marker), exceeding the claimed 100-
character bound. -/
theorem C6_counterexample :
    (derivedMediaText mediaLongTitle).length = 101 ∧
    (processMedia envAllSmall mediaLongTitle "f").mediaText.length = 103 := by
  refine ⟨by decide, by decide⟩

/-- C6 (amended): a derived caption longer than 100 characters is stored
as its first 100 characters followed by the `"..."` marker (total length
103); captions of at most 100 characters are unchanged; and every caption
in an embed (image list or video) is the stored caption of some media
item of the post. -/
theorem C6_caption_truncation :
    (∀ (env : Env) (media : ArchiveMedia) (folder : String),
      (processMedia env media folder).mediaBuffer.isSome = true →
      ((derivedMediaText media).length > 100 →
        (processMedia env media folder).mediaText =
          jsTake (derivedMediaText media) 100 ++ "...") ∧
      ((derivedMediaText media).length ≤ 100 →
        (processMedia env media folder).mediaText = derivedMediaText media)) ∧
    (∀ (env : Env) (post : ArchivePost) (folder : String) (l : List ImageEmbedX),
      (processPost env post folder).1.embeddedMedia = .images l →
      ∀ e ∈ l, ∃ m ∈ post.media, e.caption = (processMedia env m folder).mediaText) ∧
    (∀ (env : Env) (post : ArchivePost) (folder : String) (c : String) (b : Buffer)
       (mt : String),
      (processPost env post folder).1.embeddedMedia = .video c b mt →
      ∃ m ∈ post.media, c = (processMedia env m folder).mediaText) := by
  refine ⟨?_, ?_, ?_⟩
  · intro env media folder h
    rw [processMedia_text_of_usable env media folder h]
    unfold truncateCaption
    constructor
    · intro hlen
      rw [if_pos hlen]
    · intro hlen
      rw [if_neg (by omega)]
  · intro env post folder l hl e he
    rcases processPost_images_shape env post folder l hl with rfl | rfl
    · simp at he
    · exact imageLoop_mem_caption env folder post.media 0 e he
  · intro env post folder c b mt hv
    exact processPost_video_caption env post folder c b mt hv

/-- C6 witness: the amended truncation at the concrete 101-character
caption, and the unchanged short caption. -/
theorem C6_witness :
    (processMedia envAllSmall mediaLongTitle "f").mediaText =
      jsTake (derivedMediaText mediaLongTitle) 100 ++ "..." ∧
    (processMedia envAllSmall mediaSmallJpg "f").mediaText =
      derivedMediaText mediaSmallJpg :=
  ⟨(C6_caption_truncation.1 envAllSmall mediaLongTitle "f" (by decide)).1 (by decide),
   (C6_caption_truncation.1 envAllSmall mediaSmallJpg "f" (by decide)).2 (by decide)⟩

/-- Helper: the image loop started at index `j` never produces more than
`4 - j` entries. -/
theorem imageLoop_length_le (env : Env) (folder : String) :
    ∀ (ms : List ArchiveMedia) (j : Nat),
      (imageLoop env folder ms j).1.length ≤ 4 - j := by
  intro ms
  induction ms with
  | nil => intro j; simp [imageLoop]
  | cons m ms ih =>
    intro j
    simp only [imageLoop, MAX_IMAGES_PER_POST]
    split
    · simp
    · rename_i hj
      have h4 : j < 4 := by omega
      have hrest := ih (j + 1)
      split
      · split
        · simpa using by omega
        · exact le_trans hrest (by omega)
      · exact le_trans hrest (by omega)

/-- Helper: when at least `5 - j` items remain and the first `4 - j` all
qualify, the loop embeds exactly those `4 - j` items in order and emits
the cap warning. -/
theorem imageLoop_all_qualified (env : Env) (folder : String) :
    ∀ (ms : List ArchiveMedia) (j : Nat), j ≤ 4 → 5 - j ≤ ms.length →
      (∀ m ∈ ms.take (4 - j), qualifiesImage env folder m = true) →
      imageLoop env folder ms j =
        ((ms.take (4 - j)).map (fun m => imageEmbedOfResult (processMedia env m folder)),
          4 - j, true) := by
  intro ms
  induction ms with
  | nil =>
    intro j hj hlen hq
    simp only [List.length_nil] at hlen
    omega
  | cons m ms ih =>
    intro j hj hlen hq
    by_cases hj4 : j ≥ 4
    · have hj' : j = 4 := by omega
      subst hj'
      simp [imageLoop, MAX_IMAGES_PER_POST]
    · obtain ⟨k, hk⟩ : ∃ k, 4 - j = k + 1 := ⟨3 - j, by omega⟩
      have hq0 : qualifiesImage env folder m = true := by
        apply hq
        rw [hk, List.take_succ_cons]
        exact List.mem_cons_self m _
      have hq0' := hq0
      simp only [qualifiesImage, Bool.and_eq_true, bne_iff_ne, ne_eq,
        Bool.not_eq_true'] at hq0'
      obtain ⟨⟨hmtne, hmbs⟩, hiv⟩ := hq0'
      obtain ⟨mb, hmb⟩ := Option.isSome_iff_exists.mp hmbs
      obtain ⟨mt, hmt⟩ : ∃ mt, (processMedia env m folder).mimeType = some mt := by
        rcases hx : (processMedia env m folder).mimeType with _ | mt
        · rw [hx] at hmtne; simp at hmtne
        · exact ⟨mt, rfl⟩
      have hmtne' : mt ≠ "" := by
        rw [hmt] at hmtne; simpa using hmtne
      have hrest := ih (j + 1) (by omega)
        (by simp only [List.length_cons] at hlen; omega)
        (by
          intro m' hm'
          apply hq
          rw [hk, List.take_succ_cons]
          have hkk : 4 - (j + 1) = k := by omega
          rw [hkk] at hm'
          exact List.mem_cons_of_mem m hm')
      simp only [imageLoop, MAX_IMAGES_PER_POST]
      rw [if_neg hj4, hmt, hmb]
      dsimp only
      rw [if_pos ⟨hmtne', by rw [hiv]; simp⟩, hrest]
      have hkk : 4 - (j + 1) = k := by omega
      rw [hk, hkk, List.take_succ_cons, List.map_cons]
      simp only [imageEmbedOfResult, hmt, hmb, Option.getD_some]

/-- C7 counterexample: a post with five qualifying images behind one
unsupported first item ends with only THREE embedded images (the cap is
positional: indices 4 and 5 are discarded even though only three of the
first four slots qualified), with the warning emitted. -/
theorem C7_counterexample :
    (postSixMedia.media.filter (qualifiesImage envAllSmall "f")).length = 5 ∧
    (processPost envAllSmall postSixMedia "f").1.embeddedMedia =
      .images [⟨"", bufSmallImage, "image/jpeg"⟩, ⟨"", bufSmallImage, "image/jpeg"⟩,
        ⟨"", bufSmallImage, "image/jpeg"⟩] ∧
    (processPost envAllSmall postSixMedia "f").1.mediaCount = 3 ∧
    (processPost envAllSmall postSixMedia "f").2 = true := by
  refine ⟨by decide, by decide, by decide, by decide⟩

/-- C7 (amended): an image list never exceeds 4 entries; and when a
post's first four media items all qualify and a fifth exists, the embed
is exactly those four images in original order, the media count is 4, and
the cap warning is emitted.  (With non-qualifying items among the first
four, fewer than four images result even when five or more qualifying
items exist overall.) -/
theorem C7_cap_is_positional :
    (∀ (env : Env) (post : ArchivePost) (folder : String) (l : List ImageEmbedX),
      (processPost env post folder).1.embeddedMedia = .images l → l.length ≤ 4) ∧
    (∀ (env : Env) (post : ArchivePost) (folder : String),
      5 ≤ post.media.length →
      (∀ m ∈ post.media.take 4, qualifiesImage env folder m = true) →
      (processPost env post folder).1.embeddedMedia =
        .images ((post.media.take 4).map
          (fun m => imageEmbedOfResult (processMedia env m folder))) ∧
      (processPost env post folder).1.mediaCount = 4 ∧
      (processPost env post folder).2 = true) := by
  constructor
  · intro env post folder l hl
    rcases processPost_images_shape env post folder l hl with rfl | rfl
    · simp
    · simpa using imageLoop_length_le env folder post.media 0
  · intro env post folder hlen hq
    rcases hm : post.media with _ | ⟨m0, rest⟩
    · rw [hm] at hlen; simp at hlen
    · rw [hm] at hlen hq
      have hq0 := hq m0 (by
        rw [List.take_succ_cons]
        exact List.mem_cons_self m0 _)
      have hiv : (processMedia env m0 folder).isVideo = false := by
        simp only [qualifiesImage, Bool.and_eq_true, Bool.not_eq_true'] at hq0
        exact hq0.2
      have hloop := imageLoop_all_qualified env folder (m0 :: rest) 0 (by omega)
        (by simpa using hlen) (by simpa using hq)
      simp only [processPost, hm]
      rw [if_neg (by rw [hiv]; simp)]
      dsimp only
      rw [hloop]
      exact ⟨rfl, rfl, rfl⟩

/-- C7 witness: five qualifying jpgs give exactly four embeds plus the
warning. -/
theorem C7_witness :
    ([] : List ImageEmbedX).length ≤ 4 ∧
    ((processPost envAllSmall postFiveJpg "f").1.embeddedMedia =
      .images ((postFiveJpg.media.take 4).map
        (fun m => imageEmbedOfResult (processMedia envAllSmall m "f"))) ∧
    (processPost envAllSmall postFiveJpg "f").1.mediaCount = 4 ∧
    (processPost envAllSmall postFiveJpg "f").2 = true) :=
  ⟨C7_cap_is_positional.1 envNoFiles postEmptyMedia "f" [] (by decide),
   C7_cap_is_positional.2 envAllSmall postFiveJpg "f" (by decide) (by decide)⟩

/-- C8: the image constraint enforcer never silently exceeds the limit:
buffers within the 976,000-byte ceiling are returned unchanged; for an
over-limit buffer, an unreadable-metadata failure is an explicit
rejection (not a crash), and any successful result is within the ceiling
and is produced by exactly one resize call at the computed target. -/
theorem C8_enforcer_never_silently_over (s : Sharp) (b : Buffer) :
    (b.len ≤ API_LIMIT_IMAGE_UPLOAD_SIZE → processImageBuffer s b = some b) ∧
    (API_LIMIT_IMAGE_UPLOAD_SIZE < b.len →
      (s.meta b = .error () → processImageBuffer s b = none) ∧
      (∀ r, processImageBuffer s b = some r →
        r.len ≤ API_LIMIT_IMAGE_UPLOAD_SIZE ∧
        ∃ ow oh, s.meta b = .ok (ow, oh) ∧
          s.resizeBuf b (resizeParams (ow.getD 0) (oh.getD 0)).1
            (resizeParams (ow.getD 0) (oh.getD 0)).2 = .ok r)) := by
  constructor
  · intro hle
    simp [processImageBuffer, hle]
  · intro hgt
    have hif : ¬ b.len ≤ API_LIMIT_IMAGE_UPLOAD_SIZE := by omega
    constructor
    · intro herr
      simp [processImageBuffer, hif, herr]
    · intro r hr
      simp only [processImageBuffer, hif, if_false] at hr
      split at hr
      · exact absurd hr (by simp)
      · rename_i ow oh heq
        split at hr
        · exact absurd hr (by simp)
        · split at hr
          · exact absurd hr (by simp)
          · rename_i br hbr
            split at hr
            · exact absurd hr (by simp)
            · split at hr
              · exact absurd hr (by simp)
              · simp only [Option.some.injEq] at hr
                subst hr
                rename_i hlen
                exact ⟨by omega, ow, oh, heq, hbr⟩

/-- C8 witness: the enforcer at a small buffer (unchanged) and at a
resizable huge buffer (single resize to 500,000 bytes). -/
theorem C8_witness :
    processImageBuffer sharpNice ⟨10, 0⟩ = some ⟨10, 0⟩ ∧
    ((⟨500000, 9⟩ : Buffer).len ≤ API_LIMIT_IMAGE_UPLOAD_SIZE ∧
      ∃ ow oh, sharpNice.meta bufHuge = .ok (ow, oh) ∧
        sharpNice.resizeBuf bufHuge (resizeParams (ow.getD 0) (oh.getD 0)).1
          (resizeParams (ow.getD 0) (oh.getD 0)).2 = .ok ⟨500000, 9⟩) :=
  ⟨(C8_enforcer_never_silently_over sharpNice ⟨10, 0⟩).1 (by decide),
   ((C8_enforcer_never_silently_over sharpNice bufHuge).2 (by decide)).2 ⟨500000, 9⟩ rfl⟩

/-- Helper: a post whose check-date exceeds a set `MAX_DATE` (with any
set `MIN_DATE` not above it) makes the loop break with the state
unchanged. -/
theorem loopStep_stop_of_max (cfg : RunCfg) (client : Client) (vp : VideoProbe)
    (env : Env) (folder : String) (s : RunState) (p : ArchivePost) (d M : Int)
    (hM : cfg.maxDate = some M) (hsan : ∀ m, cfg.minDate = some m → m ≤ M)
    (hcd : checkDateE p = .ok (some d)) (hd : M < d) :
    loopStep cfg client vp env folder s p = .ok (.stop s) := by
  have hmin : minSkip cfg d = false := by
    unfold minSkip
    cases hmn : cfg.minDate with
    | none => rfl
    | some m =>
      have := hsan m hmn
      simp only [decide_eq_false_iff_not]
      omega
  have hmax : maxStop cfg d = true := by
    unfold maxStop
    rw [hM]
    simp only [decide_eq_true_eq]
    omega
  simp only [loopStep, hcd, hmin, hmax]
  simp

/-- C9: with `MAX_DATE` set (and `MIN_DATE`, when set, not above it), as
soon as some post in the sorted sequence has a check-date strictly beyond
`MAX_DATE`, the run's entire outcome (counters, evaluations, submissions)
equals the run on the posts strictly before it — that post and all later
posts are never evaluated or submitted; a post before a set `MIN_DATE` is
skipped individually with the loop continuing unchanged. -/
theorem C9_max_date_stops_run :
    (∀ (cfg : RunCfg) (client : Client) (vp : VideoProbe) (env : Env) (folder : String)
       (M : Int) (posts : List ArchivePost) (s : RunState) (i : Nat) (p : ArchivePost)
       (d : Int),
      cfg.maxDate = some M → (∀ m, cfg.minDate = some m → m ≤ M) →
      posts[i]? = some p → checkDateE p = .ok (some d) → M < d →
      runLoop cfg client vp env folder posts s =
        runLoop cfg client vp env folder (posts.take i) s) ∧
    (∀ (cfg : RunCfg) (client : Client) (vp : VideoProbe) (env : Env) (folder : String)
       (mn : Int) (s : RunState) (p : ArchivePost) (d : Int),
      cfg.minDate = some mn → checkDateE p = .ok (some d) → d < mn →
      loopStep cfg client vp env folder s p = .ok (.cont s)) := by
  constructor
  · intro cfg client vp env folder M posts s i p d hM hsan hip hcd hd
    induction posts generalizing i s with
    | nil => simp at hip
    | cons q rest ih =>
      cases i with
      | zero =>
        simp only [List.getElem?_cons_zero, Option.some.injEq] at hip
        subst hip
        rw [List.take_zero]
        simp only [runLoop]
        rw [loopStep_stop_of_max cfg client vp env folder s q d M hM hsan hcd hd]
      | succ i' =>
        simp only [List.getElem?_cons_succ] at hip
        rw [List.take_succ_cons]
        simp only [runLoop]
        cases hls : loopStep cfg client vp env folder s q with
        | error e => rfl
        | ok o =>
          cases o with
          | stop s' => rfl
          | cont s' => exact ih s' i' hip
  · intro cfg client vp env folder mn s p d hmn hcd hd
    have hmin : minSkip cfg d = true := by
      unfold minSkip
      rw [hmn]
      simp only [decide_eq_true_eq]
      omega
    simp only [loopStep, hcd, hmin]
    simp

/-- C9 witness: with `MAX_DATE` 5 ms, a two-post archive whose first post
dates at 10,000 ms runs exactly like the empty archive; with a large
`MIN_DATE`, the same post is skipped with the state unchanged. -/
theorem C9_witness :
    runLoop cfgMaxSmall clientNull vpFail envNoFiles "f" [postOneJpg, postOneJpg]
        initialRunState =
      runLoop cfgMaxSmall clientNull vpFail envNoFiles "f"
        ([postOneJpg, postOneJpg].take 0) initialRunState ∧
    loopStep cfgMinLarge clientNull vpFail envNoFiles "f" initialRunState postOneJpg =
      .ok (.cont initialRunState) :=
  ⟨C9_max_date_stops_run.1 cfgMaxSmall clientNull vpFail envNoFiles "f" 5
      [postOneJpg, postOneJpg] initialRunState 0 postOneJpg 10000 rfl
      (fun m hm => nomatch hm) rfl rfl (by decide),
   C9_max_date_stops_run.2 cfgMinLarge clientNull vpFail envNoFiles "f" 99999999
      initialRunState postOneJpg 10000 rfl rfl (by decide)⟩

end IG2BSky
